import Mathlib

/-!
Verification of the `script` app (rapidsms-script): a shallow embedding of
`script/models.py` — the `Script` / `ScriptStep` / `ScriptProgress` data
model and the step-progression decision methods (`get_next_step`,
`get_initial_step`, `get_last_step`, `retry_now`, `proceed`, `give_up_now`,
`keep_retrying`) — together with theorems settling the specification's
claims about them.

Modelling conventions:
* `datetime` values and second offsets become `Int` (seconds since an
  arbitrary epoch); `a + timedelta(seconds=o)` becomes `a + o` and datetime
  comparison becomes `Int` comparison, which is faithful since datetime
  arithmetic is affine.
* A nullable integer column becomes `Option Int`; Python truthiness of such
  a value (`if self.step.retry_offset:`) is `truthy`, false for both `None`
  and `0`.
* Python exceptions become `Except PyError`; the source is Python 2, where
  `None < n` is `True` for every integer `n` (`pyLtOptInt`).
* A Django queryset `script.steps` becomes the list `Script.steps`;
  `order_by('order')` is a stable sort by `order`, `values_list('order',
  flat=True)` is `List.map ScriptStep.order`, and `steps.get(order=o)`
  is `django_get` (raising `DoesNotExist` / `MultipleObjectsReturned`
  exactly as the ORM does).
-/

deriving instance DecidableEq for Except

/-- Python truthiness of a nullable integer column: `None` and `0` are falsy,
every other integer is truthy. -/
def truthy : Option Int → Bool
  | none => false
  | some n => n != 0

/-- Python 2 comparison `a < n` where `a` may be `None`: in Python 2,
`None` compares less than every integer. -/
def pyLtOptInt : Option Int → Int → Bool
  | none, _ => true
  | some a, n => a < n

/-- The Python exceptions the embedded methods can raise. -/
inductive PyError where
  | attributeError
  | valueError
  | doesNotExist
  | multipleObjectsReturned
  | integrityError
deriving DecidableEq

/-- One step of a script (`ScriptStep` in `models.py`): an `order` within its
script, a message, a one-character rule code, and the four nullable timing
columns. -/
structure ScriptStep where
  order : Int
  message : String
  rule : Char
  start_offset : Option Int
  retry_offset : Option Int
  giveup_offset : Option Int
  num_tries : Option Int
deriving DecidableEq

/-- A script (`Script` in `models.py`) with its related set of steps
(the reverse foreign key `steps`). -/
structure Script where
  slug : String
  name : String
  steps : List ScriptStep
deriving DecidableEq

/-- The per-party progress record (`ScriptProgress` in `models.py`).
`connection` is the id of the unique-constrained foreign key, `step` is the
nullable current step, `status` is the one-character status column
(`'C'` complete, `'P'` in progress), `time` the auto-now timestamp and
`num_tries` the nullable attempt counter. -/
structure ScriptProgress where
  connection : Nat
  script : Script
  step : Option ScriptStep
  status : Char
  time : Int
  num_tries : Option Int
deriving DecidableEq

/-- Comparison used by `order_by('order')`: ascending step order. -/
def stepLe (a b : ScriptStep) : Prop := a.order ≤ b.order

/-- Comparison used by `order_by('-order')`: descending step order. -/
def stepGe (a b : ScriptStep) : Prop := b.order ≤ a.order

instance : DecidableRel stepLe :=
  fun a b => inferInstanceAs (Decidable (a.order ≤ b.order))

instance : DecidableRel stepGe :=
  fun a b => inferInstanceAs (Decidable (b.order ≤ a.order))

instance : IsTotal ScriptStep stepLe := ⟨fun a b => le_total a.order b.order⟩

instance : IsTrans ScriptStep stepLe := ⟨fun _ _ _ h h' => le_trans h h'⟩

instance : IsTotal ScriptStep stepGe := ⟨fun a b => le_total b.order a.order⟩

instance : IsTrans ScriptStep stepGe := ⟨fun _ _ _ h h' => le_trans h' h⟩

/-- `list(self.script.steps.order_by('order').values_list('order', flat=True))`:
the step orders of a script, ascending. -/
def ordered_orders (s : Script) : List Int :=
  (List.insertionSort stepLe s.steps).map ScriptStep.order

/-- Python's `list.index`: index of the first occurrence, `none` standing for
the uncaught `ValueError` when the value is absent. -/
def pyIndex (v : Int) : List Int → Option Nat
  | [] => none
  | x :: xs => if x = v then some 0 else (pyIndex v xs).map (· + 1)

/-- Django's `steps.get(order=o)`: the unique matching row, or
`DoesNotExist` / `MultipleObjectsReturned`. -/
def django_get (steps : List ScriptStep) (o : Int) : Except PyError ScriptStep :=
  match steps.filter (fun t => t.order == o) with
  | [] => .error .doesNotExist
  | [s] => .ok s
  | _ :: _ :: _ => .error .multipleObjectsReturned

/-- `ScriptProgress.get_next_step` (models.py lines 86–95): `None` for a
complete record; otherwise look up the position of the current step's order
in the ascending order list and take the following order (an `IndexError`
past the end is caught and yields `None`), then fetch that step. Reading
`self.step.order` when `step` is null raises `AttributeError`, and
`list.index` raises `ValueError` when the current order is not in the list;
neither is caught. -/
def get_next_step (p : ScriptProgress) : Except PyError (Option ScriptStep) :=
  if p.status = 'C' then .ok none
  else
    match p.step with
    | none => .error .attributeError
    | some st =>
      match pyIndex st.order (ordered_orders p.script) with
      | none => .error .valueError
      | some i =>
        match (ordered_orders p.script).get? (i + 1) with
        | none => .ok none
        | some next_order =>
          match django_get p.script.steps next_order with
          | .ok s => .ok (some s)
          | .error e => .error e

/-- `ScriptProgress.get_initial_step` (models.py lines 97–101):
`order_by('order')[0]`, with the `IndexError` on an empty script caught and
turned into `None`. -/
def get_initial_step (p : ScriptProgress) : Option ScriptStep :=
  (List.insertionSort stepLe p.script.steps).head?

/-- `ScriptProgress.get_last_step` (models.py lines 102–106):
`order_by('-order')[0]`, with the `IndexError` on an empty script caught and
turned into `None`. -/
def get_last_step (p : ScriptProgress) : Option ScriptStep :=
  (List.insertionSort stepGe p.script.steps).head?

/-- `ScriptProgress.retry_now` (models.py lines 109–117). The source compares
`retry_time >= datetime.datetime.now()`; the wall-clock read is embedded as
the parameter `now`. The guard `if retry_time and ...` is just the
comparison, a `datetime` object being always truthy. Reading
`self.step.retry_offset` on a null step raises `AttributeError`. -/
def retry_now (p : ScriptProgress) (now : Int) : Except PyError Bool :=
  match p.step with
  | none => .error .attributeError
  | some st =>
    if truthy st.retry_offset then
      let retry_time := p.time + st.retry_offset.getD 0
      if retry_time ≥ now then .ok true else .ok false
    else .ok true

/-- `ScriptProgress.proceed` (models.py lines 120–129): fetch the next step;
when it exists and its `start_offset` is truthy, compare
`start_time >= datetime.datetime.now()` (embedded as `now`), otherwise
return `True`. Exceptions from `get_next_step` propagate. -/
def proceed (p : ScriptProgress) (now : Int) : Except PyError Bool :=
  match get_next_step p with
  | .error e => .error e
  | .ok next_step =>
    match next_step with
    | none => .ok true
    | some ns =>
      if truthy ns.start_offset then
        let start_time := p.time + ns.start_offset.getD 0
        if start_time ≥ now then .ok true else .ok false
      else .ok true

/-- `ScriptProgress.give_up_now` (models.py lines 144–152): same shape as
`retry_now` with `giveup_offset`. -/
def give_up_now (p : ScriptProgress) (now : Int) : Except PyError Bool :=
  match p.step with
  | none => .error .attributeError
  | some st =>
    if truthy st.giveup_offset then
      let give_up_time := p.time + st.giveup_offset.getD 0
      if give_up_time ≥ now then .ok true else .ok false
    else .ok true

/-- `ScriptProgress.keep_retrying` (models.py lines 155–159): returns Python
`True` when `self.step.num_tries` is truthy and `self.num_tries <
self.step.num_tries` (Python 2 comparison, `None` least); the `else` branch
evaluates the bare expression `False` without returning it, so the method
returns Python `None` there — embedded as `Option Bool`, `none` being
Python `None`. -/
def keep_retrying (p : ScriptProgress) : Except PyError (Option Bool) :=
  match p.step with
  | none => .error .attributeError
  | some st =>
    if truthy st.num_tries && pyLtOptInt p.num_tries (st.num_tries.getD 0) then
      .ok (some true)
    else
      .ok none

/-- Stated from the specification's words, for comparison with the source's
`keep_retrying`: "retriesExhausted(progress) -> bool: true iff the step
defines numTries and attemptCount >= numTries". -/
def retriesExhaustedSpec (p : ScriptProgress) : Bool :=
  match p.step with
  | none => false
  | some st =>
    match st.num_tries, p.num_tries with
    | some n, some a => a ≥ n
    | _, _ => false

/-- The stored-state invariant of models.py lines 66–69: each connection
belongs to at most one `ScriptProgress` record ("each connection should
belong to only ONE script at a time"). -/
def dbInvariant (db : List ScriptProgress) : Prop :=
  db.Pairwise (fun a b => a.connection ≠ b.connection)

/-- Modelled from the spec: the repository declares
`connection = models.ForeignKey(Connection, unique=True)` (models.py line
69) but the code that creates and saves `ScriptProgress` rows is ORM
machinery outside the repository, so record creation is modelled from the
spec's "one active script per party — at most one ScriptProgress per party
at a time": inserting a record whose connection already has one fails with
`IntegrityError` (the database rejects the duplicate), otherwise the row is
appended. -/
def save_new_progress (db : List ScriptProgress) (p : ScriptProgress) :
    Except PyError (List ScriptProgress) :=
  if db.any (fun q => q.connection == p.connection) then .error .integrityError
  else .ok (db ++ [p])

/-- A step with only an `order`: every nullable column null, empty message,
lenient rule. -/
def mkStep (o : Int) : ScriptStep :=
  ⟨o, "", 'l', none, none, none, none⟩

/-! ### Concrete records used to evaluate the methods at specific inputs -/

def c1_step : ScriptStep := { mkStep 1 with rule := 'R', retry_offset := some 30 }

def c1_progress : ScriptProgress :=
  ⟨11, ⟨"c1", "c1", [c1_step]⟩, some c1_step, 'P', 0, none⟩

def c2_first : ScriptStep := mkStep 1

def c2_second : ScriptStep := { mkStep 2 with start_offset := some 60 }

def c2_progress : ScriptProgress :=
  ⟨12, ⟨"c2", "c2", [c2_first, c2_second]⟩, some c2_first, 'P', 0, none⟩

def c3_step : ScriptStep := { mkStep 1 with rule := 'g', giveup_offset := some 120 }

def c3_progress : ScriptProgress :=
  ⟨13, ⟨"c3", "c3", [c3_step]⟩, some c3_step, 'P', 0, none⟩

def c4_step : ScriptStep := { mkStep 1 with rule := 'R' }

def c4_progress : ScriptProgress :=
  ⟨14, ⟨"c4", "c4", [c4_step]⟩, some c4_step, 'P', 0, some 0⟩

def c4w_step : ScriptStep := { mkStep 1 with rule := 'R', num_tries := some 2 }

def c4w_progress : ScriptProgress :=
  ⟨15, ⟨"c4w", "c4w", [c4w_step]⟩, some c4w_step, 'P', 0, some 5⟩

def c4n_progress : ScriptProgress :=
  ⟨21, ⟨"c4n", "c4n", [c4w_step]⟩, some c4w_step, 'P', 0, none⟩

def c5n_s1 : ScriptStep := mkStep 1

def c5n_progress : ScriptProgress :=
  ⟨16, ⟨"c5n", "c5n", [c5n_s1]⟩, none, 'P', 0, none⟩

def c5w_s1 : ScriptStep := mkStep 1

def c5w_s2 : ScriptStep := mkStep 2

def c5w_s3 : ScriptStep := mkStep 5

def c5w_progress : ScriptProgress :=
  ⟨17, ⟨"c5w", "c5w", [c5w_s1, c5w_s2, c5w_s3]⟩, some c5w_s2, 'P', 0, none⟩

def c6_s1 : ScriptStep := mkStep 3

def c6_s2 : ScriptStep := mkStep 1

def c6_progress : ScriptProgress :=
  ⟨18, ⟨"c6", "c6", [c6_s1, c6_s2]⟩, none, 'P', 0, none⟩

def c8_s1 : ScriptStep := mkStep 1

def c8_s2 : ScriptStep := mkStep 2

def c8_progress : ScriptProgress :=
  ⟨19, ⟨"c8", "c8", [c8_s1, c8_s2]⟩, some c8_s1, 'C', 0, none⟩

def c9_p1 : ScriptProgress := ⟨1, ⟨"c9", "c9", []⟩, none, 'P', 0, none⟩

def c9_p2 : ScriptProgress := ⟨2, ⟨"c9", "c9", []⟩, none, 'P', 0, none⟩

def c10_s1 : ScriptStep :=
  { mkStep 1 with rule := 'r', retry_offset := some 0, giveup_offset := some 0 }

def c10_s2 : ScriptStep := { mkStep 2 with start_offset := some 0 }

def c10_progress : ScriptProgress :=
  ⟨20, ⟨"c10", "c10", [c10_s1, c10_s2]⟩, some c10_s1, 'P', 0, none⟩

/-! ### Helper lemmas about `pyIndex`, sorted order lists and `django_get` -/

theorem pyIndex_mem {v : Int} : ∀ {l : List Int} {i : Nat},
    pyIndex v l = some i → v ∈ l := by
  intro l
  induction l with
  | nil => intro i h; simp [pyIndex] at h
  | cons x xs ih =>
    intro i h
    by_cases hx : x = v
    · subst hx; exact List.mem_cons_self _ _
    · simp only [pyIndex, if_neg hx, Option.map_eq_some'] at h
      obtain ⟨j, hj, _⟩ := h
      exact List.mem_cons_of_mem _ (ih hj)

theorem mem_pyIndex {v : Int} : ∀ {l : List Int},
    v ∈ l → ∃ i, pyIndex v l = some i := by
  intro l
  induction l with
  | nil => intro h; simp at h
  | cons x xs ih =>
    intro h
    by_cases hx : x = v
    · exact ⟨0, by simp [pyIndex, hx]⟩
    · have hv : v ∈ xs := by
        rcases List.mem_cons.mp h with h' | h'
        · exact absurd h'.symm hx
        · exact h'
      obtain ⟨j, hj⟩ := ih hv
      exact ⟨j + 1, by simp [pyIndex, if_neg hx, hj]⟩

theorem get?_mem {α : Type} {l : List α} {n : Nat} {a : α}
    (h : l.get? n = some a) : a ∈ l := by
  induction l generalizing n with
  | nil => simp [List.get?] at h
  | cons x xs ih =>
    cases n with
    | zero =>
      simp only [List.get?, Option.some.injEq] at h
      subst h
      exact List.mem_cons_self _ _
    | succ m => exact List.mem_cons_of_mem _ (ih h)

theorem sorted_succ_of_pyIndex : ∀ {l : List Int}, l.Pairwise (· < ·) →
    ∀ {v : Int} {i : Nat}, pyIndex v l = some i →
    (∀ w, l.get? (i + 1) = some w → v < w ∧ ∀ x ∈ l, v < x → w ≤ x) ∧
    (l.get? (i + 1) = none → ∀ x ∈ l, x ≤ v) := by
  intro l
  induction l with
  | nil => intro _ v i h; simp [pyIndex] at h
  | cons x xs ih =>
    intro hs v i h
    have hx_lt : ∀ y ∈ xs, x < y := fun y hy => List.rel_of_pairwise_cons hs hy
    have hs' : xs.Pairwise (· < ·) := List.Pairwise.of_cons hs
    by_cases hx : x = v
    · have hi : i = 0 := by
        simp [pyIndex, hx] at h
        omega
      subst hi
      subst hx
      constructor
      · intro w hw
        have hw' : xs.get? 0 = some w := hw
        have hwmem : w ∈ xs := get?_mem hw'
        refine ⟨hx_lt w hwmem, ?_⟩
        intro y hy _
        rcases List.mem_cons.mp hy with rfl | hy'
        · exact absurd (hx_lt w hwmem) (by omega)
        · cases xs with
          | nil => simp at hwmem
          | cons z zs =>
            have hz : z = w := by
              simp [List.get?] at hw'
              omega
            subst hz
            rcases List.mem_cons.mp hy' with rfl | hy''
            · exact le_refl _
            · exact le_of_lt (List.rel_of_pairwise_cons hs' hy'')
      · intro hw y hy
        have hxs : xs = [] := by
          cases xs with
          | nil => rfl
          | cons z zs => simp [List.get?] at hw
        subst hxs
        have : y = x := by simpa using hy
        omega
    · have hstep : ∃ j, pyIndex v xs = some j ∧ i = j + 1 := by
        simp only [pyIndex, if_neg hx, Option.map_eq_some'] at h
        obtain ⟨j, hj, hij⟩ := h
        exact ⟨j, hj, hij.symm⟩
      obtain ⟨j, hj, rfl⟩ := hstep
      have hvmem : v ∈ xs := pyIndex_mem hj
      have hxv : x < v := hx_lt v hvmem
      have ihj := ih hs' hj
      constructor
      · intro w hw
        have hw' : xs.get? (j + 1) = some w := hw
        obtain ⟨h1, h2⟩ := (ihj.1) w hw'
        refine ⟨h1, ?_⟩
        intro y hy hvy
        rcases List.mem_cons.mp hy with rfl | hy'
        · omega
        · exact h2 y hy' hvy
      · intro hw y hy
        have hw' : xs.get? (j + 1) = none := hw
        rcases List.mem_cons.mp hy with rfl | hy'
        · omega
        · exact ihj.2 hw' y hy'

theorem filter_order_singleton : ∀ {steps : List ScriptStep},
    steps.Pairwise (fun a b => a.order ≠ b.order) →
    ∀ {u : ScriptStep}, u ∈ steps →
    steps.filter (fun t => t.order == u.order) = [u] := by
  intro steps
  induction steps with
  | nil => intro _ u hu; simp at hu
  | cons a l ih =>
    intro hp u hu
    have ha_ne : ∀ b ∈ l, a.order ≠ b.order := fun b hb =>
      List.rel_of_pairwise_cons hp hb
    have hp' : l.Pairwise (fun a b => a.order ≠ b.order) := List.Pairwise.of_cons hp
    rcases List.mem_cons.mp hu with rfl | hu'
    · have hnil : l.filter (fun t => t.order == u.order) = [] := by
        rw [List.filter_eq_nil_iff]
        intro b hb
        simpa using (ha_ne b hb).symm
      simp [List.filter_cons, hnil]
    · have hne : ¬(a.order == u.order) := by
        simpa using ha_ne u hu'
      simp only [List.filter_cons, hne, if_neg]
      simpa using ih hp' hu'

theorem django_get_of_mem {steps : List ScriptStep}
    (hp : steps.Pairwise (fun a b => a.order ≠ b.order))
    {u : ScriptStep} (hu : u ∈ steps) :
    django_get steps u.order = .ok u := by
  simp [django_get, filter_order_singleton hp hu]

theorem head?_insertionSort_eq_none
    (r : ScriptStep → ScriptStep → Prop) [DecidableRel r]
    (l : List ScriptStep) :
    (List.insertionSort r l).head? = none ↔ l = [] := by
  constructor
  · intro h
    have h' : List.insertionSort r l = [] := by
      cases hl : List.insertionSort r l with
      | nil => rfl
      | cons x xs => rw [hl] at h; simp at h
    have hperm := List.perm_insertionSort r l
    rw [h'] at hperm
    exact hperm.symm.eq_nil
  · intro h
    subst h
    rfl

theorem head?_insertionSort_min
    (r : ScriptStep → ScriptStep → Prop) [DecidableRel r]
    [IsTotal ScriptStep r] [IsTrans ScriptStep r]
    (l : List ScriptStep) (s : ScriptStep)
    (h : (List.insertionSort r l).head? = some s) :
    s ∈ l ∧ ∀ t ∈ l, r s t := by
  have hsorted := List.sorted_insertionSort r l
  have hperm := List.perm_insertionSort r l
  cases hl : List.insertionSort r l with
  | nil => rw [hl] at h; simp at h
  | cons x xs =>
    rw [hl] at h hsorted hperm
    simp only [List.head?, Option.some.injEq] at h
    have hs_mem : s ∈ x :: xs := by rw [← h]; exact List.mem_cons_self _ _
    refine ⟨hperm.mem_iff.mp hs_mem, ?_⟩
    intro t ht
    have ht' : t ∈ x :: xs := hperm.mem_iff.mpr ht
    rcases List.mem_cons.mp ht' with rfl | ht''
    · rw [h]
      rcases IsTotal.total (r := r) s s with h' | h' <;> exact h'
    · rw [← h]
      exact List.rel_of_sorted_cons hsorted t ht''

theorem mem_ordered_orders {s : Script} {x : Int} :
    x ∈ ordered_orders s ↔ ∃ u ∈ s.steps, u.order = x := by
  unfold ordered_orders
  rw [((List.perm_insertionSort stepLe s.steps).map ScriptStep.order).mem_iff]
  simp [List.mem_map]

theorem ordered_orders_pairwise_lt {s : Script}
    (hp : s.steps.Pairwise (fun a b => a.order ≠ b.order)) :
    (ordered_orders s).Pairwise (· < ·) := by
  unfold ordered_orders
  rw [List.pairwise_map]
  have hle : (List.insertionSort stepLe s.steps).Pairwise
      (fun a b => a.order ≤ b.order) :=
    List.sorted_insertionSort stepLe s.steps
  have hne : (List.insertionSort stepLe s.steps).Pairwise
      (fun a b => a.order ≠ b.order) := by
    refine (List.Perm.pairwise_iff ?_ (List.perm_insertionSort stepLe s.steps)).mpr hp
    intro a b h
    exact h.symm
  exact hle.imp₂ (fun _ _ h1 h2 => lt_of_le_of_ne h1 h2) hne

theorem order_inj {steps : List ScriptStep}
    (hp : steps.Pairwise (fun a b => a.order ≠ b.order))
    {u u' : ScriptStep} (hu : u ∈ steps) (hu' : u' ∈ steps)
    (h : u'.order = u.order) : u' = u := by
  have hmem : u' ∈ steps.filter (fun t => t.order == u.order) :=
    List.mem_filter.mpr ⟨hu', by simp [h]⟩
  rw [filter_order_singleton hp hu] at hmem
  simpa using hmem

/-- Claim C5 (amended): for every in-progress record over a script whose
steps have pairwise-distinct order values and whose current step belongs to
the script, `get_next_step` returns the step with the smallest order
strictly greater than the current step's order (gaps in order values are
permitted), and returns null when no strictly greater order exists; when
the current step is null it raises `AttributeError` (from reading
`self.step.order`) instead of returning the first step as the original
claim stated. -/
theorem get_next_step_spec (p : ScriptProgress)
    (hstatus : p.status = 'P')
    (hp : p.script.steps.Pairwise (fun a b => a.order ≠ b.order)) :
    (p.step = none → get_next_step p = .error .attributeError) ∧
    (∀ st, p.step = some st → st ∈ p.script.steps →
      ((∀ t ∈ p.script.steps, t.order ≤ st.order) → get_next_step p = .ok none) ∧
      (∀ t ∈ p.script.steps, st.order < t.order →
        ∃ s, get_next_step p = .ok (some s) ∧ s ∈ p.script.steps ∧
          st.order < s.order ∧
          ∀ u ∈ p.script.steps, st.order < u.order → s.order ≤ u.order)) := by
  have hC : ¬(p.status = 'C') := by rw [hstatus]; decide
  constructor
  · intro hnone
    simp [get_next_step, hC, hnone]
  · intro st hst hmem
    have hLlt : (ordered_orders p.script).Pairwise (· < ·) :=
      ordered_orders_pairwise_lt hp
    have hmemL : st.order ∈ ordered_orders p.script :=
      mem_ordered_orders.mpr ⟨st, hmem, rfl⟩
    obtain ⟨i, hidx⟩ := mem_pyIndex hmemL
    have hkey := sorted_succ_of_pyIndex hLlt hidx
    cases hget : (ordered_orders p.script).get? (i + 1) with
    | none =>
      have hval : get_next_step p = .ok none := by
        simp only [get_next_step, if_neg hC, hst, hidx, hget]
      refine ⟨fun _ => hval, ?_⟩
      intro t ht hlt
      exfalso
      have htL : t.order ∈ ordered_orders p.script :=
        mem_ordered_orders.mpr ⟨t, ht, rfl⟩
      have := hkey.2 hget t.order htL
      omega
    | some w =>
      obtain ⟨hw1, hw2⟩ := hkey.1 w hget
      have hwmemL : w ∈ ordered_orders p.script := get?_mem hget
      obtain ⟨u, hu_mem, hu_ord⟩ := mem_ordered_orders.mp hwmemL
      have hdj : django_get p.script.steps w = .ok u := by
        rw [← hu_ord]
        exact django_get_of_mem hp hu_mem
      have hval : get_next_step p = .ok (some u) := by
        simp only [get_next_step, if_neg hC, hst, hidx, hget, hdj]
      constructor
      · intro hall
        exfalso
        have := hall u hu_mem
        omega
      · intro t ht hlt
        refine ⟨u, hval, hu_mem, by omega, ?_⟩
        intro v hv hvlt
        have hvL : v.order ∈ ordered_orders p.script :=
          mem_ordered_orders.mpr ⟨v, hv, rfl⟩
        have := hw2 v.order hvL hvlt
        omega

/-! ### Claim theorems -/

/-- Claim C1: the claim states `retry_now` is true iff the step defines no
`retryOffset` or `now >= time + retryOffset`. The code tests
`retry_time >= now` — the opposite direction — so at a time strictly past
the retry target (where the claim requires `True`) the method returns
`False`: evaluated here at `retry_offset = 30`, `time = 0`, `now = 100`. -/
theorem retry_now_after_target_passed :
    retry_now c1_progress 100 = .ok false ∧
    c1_progress.time + 30 ≤ 100 := by
  decide

/-- Claim C2: the claim states `proceed` is true iff the next step has no
`startOffset` or `now >= time + startOffset`. The code tests
`start_time >= now` — the opposite direction — so at a time strictly past
the start target (where the claim requires `True`) the method returns
`False`: evaluated here at next step's `start_offset = 60`, `time = 0`,
`now = 1000`. -/
theorem proceed_after_target_passed :
    proceed c2_progress 1000 = .ok false ∧
    c2_progress.time + 60 ≤ 1000 := by
  decide

/-- Claim C3: the claim states `give_up_now` is true iff the current step
has no `giveupOffset` or `now >= time + giveupOffset`. The code tests
`give_up_time >= now` — the opposite direction — so at a time strictly past
the give-up target (where the claim requires `True`) the method returns
`False`: evaluated here at `giveup_offset = 120`, `time = 0`, `now = 500`. -/
theorem give_up_now_after_target_passed :
    give_up_now c3_progress 500 = .ok false ∧
    c3_progress.time + 120 ≤ 500 := by
  decide

/-- Counterexample to claim C4 as stated: on a record whose step defines no
`num_tries`, `retriesExhausted` (per the claim's definition) is false, so
the claimed boolean negation would make `keep_retrying` return `True`; the
code instead falls into the `else` branch and returns Python `None`. -/
theorem keep_retrying_not_negation_cex :
    keep_retrying c4_progress = .ok none ∧
    retriesExhaustedSpec c4_progress = false ∧
    keep_retrying c4_progress ≠ .ok (some (! retriesExhaustedSpec c4_progress)) := by
  decide

/-- Claim C4 (amended): for every record with a current step,
`keep_retrying` never returns Python `False` — its result is Python `True`
or the Python `None` that falls out of the missing return on the false
branch. When the step's `num_tries` is defined and nonzero, the result is
`True` exactly when `retriesExhausted` is false, where an undefined attempt
count counts as not exhausted and keeps retrying (Python 2 orders `None`
below every integer); whenever `retriesExhausted` is true the method
returns `None` rather than `False`. When `num_tries` is undefined the
method returns `None` although `retriesExhausted` is false, and when
`num_tries` is zero the truthiness guard likewise makes it return `None`. -/
theorem keep_retrying_amended (p : ScriptProgress) (st : ScriptStep)
    (hst : p.step = some st) :
    (keep_retrying p = .ok (some true) ∨ keep_retrying p = .ok none) ∧
    (∀ n, st.num_tries = some n → n ≠ 0 →
      (keep_retrying p = .ok (some true) ↔ retriesExhaustedSpec p = false)) ∧
    (retriesExhaustedSpec p = true → keep_retrying p = .ok none) ∧
    (st.num_tries = none →
      keep_retrying p = .ok none ∧ retriesExhaustedSpec p = false) ∧
    (st.num_tries = some 0 → keep_retrying p = .ok none) := by
  refine ⟨?_, ?_, ?_, ?_, ?_⟩
  · simp only [keep_retrying, hst]
    by_cases h :
        (truthy st.num_tries && pyLtOptInt p.num_tries (st.num_tries.getD 0)) = true
    · rw [if_pos h]
      exact Or.inl rfl
    · rw [if_neg h]
      exact Or.inr rfl
  · intro n hn hn0
    have hb : truthy (some n) = true := by simp [truthy, hn0]
    cases hpa : p.num_tries with
    | none =>
      have h1 : keep_retrying p = .ok (some true) := by
        simp [keep_retrying, hst, hb, pyLtOptInt, hpa, hn]
      have h2 : retriesExhaustedSpec p = false := by
        simp [retriesExhaustedSpec, hst, hn, hpa]
      rw [h1, h2]
      simp
    | some a =>
      have h2 : retriesExhaustedSpec p = decide (a ≥ n) := by
        simp [retriesExhaustedSpec, hst, hn, hpa]
      by_cases hlt : a < n
      · have h1 : keep_retrying p = .ok (some true) := by
          simp [keep_retrying, hst, hb, pyLtOptInt, hpa, hn, hlt]
        rw [h1, h2]
        simp
        omega
      · have h1 : keep_retrying p = .ok none := by
          simp [keep_retrying, hst, hb, pyLtOptInt, hpa, hn, hlt]
        rw [h1, h2]
        constructor
        · intro h
          exact absurd h (by simp)
        · intro h
          simp at h
          exact absurd h hlt
  · intro hre
    cases hn : st.num_tries with
    | none =>
      have : retriesExhaustedSpec p = false := by
        simp [retriesExhaustedSpec, hst, hn]
      rw [this] at hre
      exact absurd hre (by simp)
    | some n =>
      cases hpa : p.num_tries with
      | none =>
        have : retriesExhaustedSpec p = false := by
          simp [retriesExhaustedSpec, hst, hn, hpa]
        rw [this] at hre
        exact absurd hre (by simp)
      | some a =>
        have hge : a ≥ n := by
          have h2 : retriesExhaustedSpec p = decide (a ≥ n) := by
            simp [retriesExhaustedSpec, hst, hn, hpa]
          rw [h2] at hre
          simpa using hre
        by_cases hn0 : n = 0
        · subst hn0
          simp [keep_retrying, hst, hn, truthy]
        · have hlt : ¬(a < n) := by omega
          simp [keep_retrying, hst, hn, truthy, hn0, pyLtOptInt, hpa, hlt]
  · intro hn
    constructor
    · simp [keep_retrying, hst, hn, truthy]
    · simp [retriesExhaustedSpec, hst, hn]
  · intro hn
    simp [keep_retrying, hst, hn, truthy]

theorem keep_retrying_amended_witness :
    (keep_retrying c4w_progress = .ok (some true) ↔
      retriesExhaustedSpec c4w_progress = false) ∧
    keep_retrying c4w_progress = .ok none ∧
    keep_retrying c4n_progress = .ok (some true) :=
  ⟨(keep_retrying_amended c4w_progress c4w_step rfl).2.1 2 rfl (by decide),
   (keep_retrying_amended c4w_progress c4w_step rfl).2.2.1 (by decide),
   ((keep_retrying_amended c4n_progress c4w_step rfl).2.1 2 rfl
      (by decide)).mpr (by decide)⟩

/-- Counterexample to claim C5 as stated: on an in-progress record whose
current step is null, the claim says `get_next_step` returns the first
step; the code raises `AttributeError`. -/
theorem get_next_step_null_step_cex :
    c5n_progress.step = none ∧ c5n_progress.status = 'P' ∧
    get_initial_step c5n_progress = some c5n_s1 ∧
    get_next_step c5n_progress = .error .attributeError ∧
    get_next_step c5n_progress ≠ .ok (some c5n_s1) := by
  decide

theorem get_next_step_spec_witness :
    ∃ s, get_next_step c5w_progress = .ok (some s) ∧
      s ∈ c5w_progress.script.steps ∧ c5w_s2.order < s.order ∧
      ∀ u ∈ c5w_progress.script.steps, c5w_s2.order < u.order →
        s.order ≤ u.order :=
  ((get_next_step_spec c5w_progress rfl (by decide)).2 c5w_s2 rfl
    (by decide)).2 c5w_s3 (by decide) (by decide)

/-- Claim C6: `get_initial_step` returns a step of minimal order,
`get_last_step` a step of maximal order, and each returns null exactly when
the script has zero steps. -/
theorem initial_and_last_step_spec (p : ScriptProgress) :
    (get_initial_step p = none ↔ p.script.steps = []) ∧
    (get_last_step p = none ↔ p.script.steps = []) ∧
    (∀ s, get_initial_step p = some s →
      s ∈ p.script.steps ∧ ∀ t ∈ p.script.steps, s.order ≤ t.order) ∧
    (∀ s, get_last_step p = some s →
      s ∈ p.script.steps ∧ ∀ t ∈ p.script.steps, t.order ≤ s.order) := by
  refine ⟨head?_insertionSort_eq_none stepLe _,
    head?_insertionSort_eq_none stepGe _, ?_, ?_⟩
  · intro s hs
    exact head?_insertionSort_min stepLe _ s hs
  · intro s hs
    exact head?_insertionSort_min stepGe _ s hs

theorem initial_and_last_step_spec_witness :
    (c6_s2 ∈ c6_progress.script.steps ∧
      ∀ t ∈ c6_progress.script.steps, c6_s2.order ≤ t.order) ∧
    (c6_s1 ∈ c6_progress.script.steps ∧
      ∀ t ∈ c6_progress.script.steps, t.order ≤ c6_s1.order) :=
  ⟨(initial_and_last_step_spec c6_progress).2.2.1 c6_s2 (by decide),
   (initial_and_last_step_spec c6_progress).2.2.2 c6_s1 (by decide)⟩

/-- Claim C8: evaluating a record whose status is Complete is a no-op, not
an error — `get_next_step` returns null for every complete record,
whatever its current step and script. -/
theorem get_next_step_complete (p : ScriptProgress) (h : p.status = 'C') :
    get_next_step p = .ok none := by
  simp [get_next_step, h]

theorem get_next_step_complete_witness :
    get_next_step c8_progress = .ok none ∧
    c8_s2 ∈ c8_progress.script.steps ∧ c8_s1.order < c8_s2.order :=
  ⟨get_next_step_complete c8_progress rfl, by decide, by decide⟩

/-- Claim C9: each connection has at most one `ScriptProgress` record, and
saving a new record preserves this — the insert modelled from the
`unique=True` constraint either fails or keeps connections pairwise
distinct. -/
theorem save_new_progress_preserves_unique (db : List ScriptProgress)
    (p : ScriptProgress) (db' : List ScriptProgress)
    (hwf : dbInvariant db) (h : save_new_progress db p = .ok db') :
    dbInvariant db' := by
  unfold save_new_progress at h
  by_cases hany : db.any (fun q => q.connection == p.connection)
  · rw [if_pos hany] at h
    exact absurd h (by simp)
  · rw [if_neg hany] at h
    simp only [Except.ok.injEq] at h
    subst h
    unfold dbInvariant at hwf ⊢
    rw [List.pairwise_append]
    refine ⟨hwf, List.pairwise_singleton _ _, ?_⟩
    intro a ha b hb
    have hb' : b = p := by simpa using hb
    subst hb'
    intro hc
    exact hany (List.any_eq_true.mpr ⟨a, ha, by simp [hc]⟩)

theorem save_new_progress_preserves_unique_witness :
    dbInvariant [c9_p1, c9_p2] :=
  save_new_progress_preserves_unique [c9_p1] c9_p2 [c9_p1, c9_p2]
    (by simp [dbInvariant]) (by decide)

/-- Claim C10: an offset equal to `0` is treated exactly like an absent
offset, because the predicates test Python truthiness: `retry_now` is
unconditionally true when `retry_offset = 0`, `give_up_now` when
`giveup_offset = 0`, and `proceed` when the next step's
`start_offset = 0`. -/
theorem zero_offset_treated_as_absent (p : ScriptProgress) (now : Int) :
    (∀ st, p.step = some st → st.retry_offset = some 0 →
      retry_now p now = .ok true) ∧
    (∀ st, p.step = some st → st.giveup_offset = some 0 →
      give_up_now p now = .ok true) ∧
    (∀ ns, get_next_step p = .ok (some ns) → ns.start_offset = some 0 →
      proceed p now = .ok true) := by
  refine ⟨?_, ?_, ?_⟩
  · intro st h h0
    simp [retry_now, h, truthy, h0]
  · intro st h h0
    simp [give_up_now, h, truthy, h0]
  · intro ns h h0
    simp [proceed, h, truthy, h0]

theorem zero_offset_treated_as_absent_witness :
    retry_now c10_progress 50 = .ok true ∧
    give_up_now c10_progress 50 = .ok true ∧
    proceed c10_progress 50 = .ok true :=
  ⟨(zero_offset_treated_as_absent c10_progress 50).1 c10_s1 rfl rfl,
   (zero_offset_treated_as_absent c10_progress 50).2.1 c10_s1 rfl rfl,
   (zero_offset_treated_as_absent c10_progress 50).2.2 c10_s2 (by decide) rfl⟩
